import Mathlib

/-!
Verification of the zoom-control core of `CameraZoomPlugin.cc`
(ardupilot_gazebo).  The per-tick controller `PreUpdate` maps a latched
zoom command into a rate-limited change of the camera's horizontal field
of view.  Doubles are modelled as real numbers; `std::isfinite` on the
slew rate is modelled by an explicit finite/infinite sum type; the
external collaborators (render engine, entity-component manager) are
modelled by boolean availability inputs per tick.
-/

namespace CameraZoom

open Real

/-- Machine epsilon for IEEE double precision,
`std::numeric_limits<double>::epsilon() = 2⁻⁵²`. -/
noncomputable def eps : ℝ := 1 / 2 ^ 52

/-- Two-argument arctangent: the mathematical semantics of `std::atan2`
on (non-NaN, unsigned-zero) real inputs. -/
noncomputable def atan2 (y x : ℝ) : ℝ :=
  if 0 < x then arctan (y / x)
  else if x < 0 then
    (if 0 ≤ y then arctan (y / x) + π else arctan (y / x) - π)
  else (if 0 < y then π / 2 else if y < 0 then -(π / 2) else 0)

/-- `CameraZoomPlugin::Impl::FocalLengthToFov`:
`2 * std::atan2(sensorWidth, 2 * focalLength)`. -/
noncomputable def FocalLengthToFov (sensorWidth focalLength : ℝ) : ℝ :=
  2 * atan2 sensorWidth (2 * focalLength)

/-- `CameraZoomPlugin::Impl::FovToFocalLength`:
`sensorWidth / (2 * std::tan(fov / 2))`. -/
noncomputable def FovToFocalLength (sensorWidth fov : ℝ) : ℝ :=
  sensorWidth / (2 * tan (fov / 2))

/-- `CameraZoomPlugin::Impl::SensorWidth`:
`2 * std::tan(fov / 2) * focalLength`. -/
noncomputable def SensorWidth (focalLength fov : ℝ) : ℝ :=
  2 * tan (fov / 2) * focalLength

/-- `std::clamp(v, lo, hi)`: `v < lo ? lo : (hi < v ? hi : v)`. -/
noncomputable def clamp (v lo hi : ℝ) : ℝ :=
  if v < lo then lo else if hi < v then hi else v

/-- A double slew rate as tested by `std::isfinite`: either a finite real
or infinite (the plugin default `std::numeric_limits<double>::infinity()`). -/
inductive SlewRate where
  | fin (r : ℝ)
  | inf

/-- The mutable fields of `CameraZoomPlugin::Impl` relevant to the
per-tick control loop. -/
structure PluginState where
  isValidConfig : Bool
  hasCamera : Bool
  zoomChanged : Bool
  zoomCommand : ℝ
  refHfov : ℝ
  goalHfov : ℝ
  maxZoom : ℝ
  slewRate : SlewRate

/-- `CameraZoomPlugin::Impl::minZoom = 1.0`. -/
def minZoom : ℝ := 1

/-- The camera component data read and written through the
entity-component manager: `cameraSdf->HorizontalFov()` and
`cameraSdf->LensFocalLength()`. -/
structure CameraComp where
  hfov : ℝ
  focalLength : ℝ

/-- Per-tick inputs: elapsed time `_info.dt` and the availability of the
external collaborators (whether `InitialiseCamera` succeeds, whether the
`components::Camera` lookup and the nested `sdf::Camera` are present). -/
structure TickInput where
  dt : ℝ
  acquireSucceeds : Bool
  compPresent : Bool
  sdfPresent : Bool

/-- Result of one `PreUpdate` call: the updated plugin state, the updated
camera component, whether `SetChanged` was invoked, and whether the
clamping warning was emitted. -/
structure TickResult where
  state : PluginState
  camera : CameraComp
  setChanged : Bool
  warned : Bool

/-- `CameraZoomPlugin::Impl::OnZoom`: latch the command and set the
dirty flag. -/
def OnZoom (s : PluginState) (value : ℝ) : PluginState :=
  { s with zoomCommand := value, zoomChanged := true }

/-- `CameraZoomPlugin::Impl::OnRenderTeardown`: release the rendering
handle and mark the configuration invalid. -/
def OnRenderTeardown (s : PluginState) : PluginState :=
  { s with hasCamera := false, isValidConfig := false }

/-- The new focal length computed by the slew block of `PreUpdate`
(source lines 451-473). -/
noncomputable def slewFocalLength (slew : SlewRate) (dt cur goal : ℝ) : ℝ :=
  match slew with
  | .fin r =>
      let maxFocalLengthChange := r * dt
      let deltaFL := min maxFocalLengthChange |cur - goal|
      if goal > cur then cur + deltaFL else cur - deltaFL
  | .inf => goal

/-- The goal-resolution block of `PreUpdate` (source lines 414-428):
on a dirty flag, clamp the command, warn when the clamp moved it by more
than machine epsilon, recompute the goal FOV and clear the flag.
Returns the updated state and whether the warning fired. -/
noncomputable def resolveGoal (s : PluginState) : PluginState × Bool :=
  if s.zoomChanged then
    let requestedZoomCmd := s.zoomCommand
    let clampedZoomCmd := clamp requestedZoomCmd minZoom s.maxZoom
    ({ s with goalHfov := s.refHfov / clampedZoomCmd, zoomChanged := false },
      decide (|requestedZoomCmd - clampedZoomCmd| > eps))
  else (s, false)

/-- `CameraZoomPlugin::PreUpdate`, one tick.  Mirrors the source's
control flow: invalid-config guard, lazy camera acquisition (which does
nothing else on the acquisition tick), camera-component guard, goal
resolution, sdf guard, early exit when already at the goal within
machine epsilon, then the slew computation and the FOV write with its
change signal. -/
noncomputable def PreUpdate (s : PluginState) (cam : CameraComp)
    (inp : TickInput) : TickResult :=
  if s.isValidConfig = false then ⟨s, cam, false, false⟩
  else if s.hasCamera = false then
    ⟨{ s with hasCamera := inp.acquireSucceeds }, cam, false, false⟩
  else if inp.compPresent = false then ⟨s, cam, false, false⟩
  else
    let rg := resolveGoal s
    let s1 := rg.1
    if inp.sdfPresent = false then ⟨s1, cam, false, rg.2⟩
    else if |s1.goalHfov - cam.hfov| < eps then ⟨s1, cam, false, rg.2⟩
    else
      let sensorWidth := SensorWidth cam.focalLength cam.hfov
      let goalFocalLength := FovToFocalLength sensorWidth s1.goalHfov
      let newFocalLength :=
        slewFocalLength s1.slewRate inp.dt cam.focalLength goalFocalLength
      let newHfov := FocalLengthToFov sensorWidth newFocalLength
      ⟨s1, { cam with hfov := newHfov }, true, rg.2⟩

/-- A sequence of ticks; the boolean accumulates whether any tick
signalled a change. -/
noncomputable def run (s : PluginState) (cam : CameraComp) :
    List TickInput → PluginState × CameraComp × Bool
  | [] => (s, cam, false)
  | i :: is =>
      let r := PreUpdate s cam i
      let rest := run r.state r.camera is
      (rest.1, rest.2.1, r.setChanged || rest.2.2)

/-! ### Basic optics lemmas -/

lemma eps_pos : (0 : ℝ) < eps := by norm_num [eps]

lemma atan2_of_pos (y x : ℝ) (hx : 0 < x) : atan2 y x = arctan (y / x) := by
  simp [atan2, hx]

lemma tan_half_pos {fov : ℝ} (h1 : 0 < fov) (h2 : fov < π) :
    0 < tan (fov / 2) :=
  tan_pos_of_pos_of_lt_pi_div_two (by linarith) (by linarith)

lemma sensorWidth_pos {f fov : ℝ} (hf : 0 < f) (h1 : 0 < fov)
    (h2 : fov < π) : 0 < SensorWidth f fov := by
  have ht := tan_half_pos h1 h2
  unfold SensorWidth
  positivity

lemma focalLengthToFov_pos_fl (w x : ℝ) (hx : 0 < x) :
    FocalLengthToFov w x = 2 * arctan (w / (2 * x)) := by
  rw [FocalLengthToFov, atan2_of_pos]
  positivity

/-- The FOV produced for a positive trial focal length `x`, in terms of
the current FOV `θ` and the (fixed) lens focal length `f`. -/
lemma fov_of_trial_fl {f θ : ℝ} (hf : 0 < f) (h1 : 0 < θ) (h2 : θ < π)
    (x : ℝ) (hx : 0 < x) :
    FocalLengthToFov (SensorWidth f θ) x = 2 * arctan (tan (θ / 2) * f / x) := by
  rw [focalLengthToFov_pos_fl _ _ hx, SensorWidth]
  congr 2
  field_simp
  ring

/-- Round trip at the lens's own focal length: converting the sensor
width back through the lens focal length recovers the FOV exactly. -/
lemma roundtrip_core {f fov : ℝ} (hf : 0 < f) (h1 : 0 < fov)
    (h2 : fov < π) : FocalLengthToFov (SensorWidth f fov) f = fov := by
  rw [fov_of_trial_fl hf h1 h2 f hf]
  rw [mul_div_assoc, div_self (ne_of_gt hf), mul_one]
  rw [arctan_tan (by linarith [pi_pos]) (by linarith)]
  ring

/-- The goal focal length in closed form. -/
lemma goalFL_eq {f θ g : ℝ} :
    FovToFocalLength (SensorWidth f θ) g = tan (θ / 2) * f / tan (g / 2) := by
  rw [FovToFocalLength, SensorWidth]
  by_cases hg : tan (g / 2) = 0
  · simp [hg]
  · field_simp
    ring

lemma goalFL_pos {f θ g : ℝ} (hf : 0 < f) (h1 : 0 < θ) (h2 : θ < π)
    (hg1 : 0 < g) (hg2 : g < π) :
    0 < FovToFocalLength (SensorWidth f θ) g := by
  rw [goalFL_eq]
  have h3 := tan_half_pos h1 h2
  have h4 := tan_half_pos hg1 hg2
  positivity

/-- Converting the goal focal length back to a FOV yields the goal FOV
exactly. -/
lemma fov_at_goalFL {f θ g : ℝ} (hf : 0 < f) (h1 : 0 < θ) (h2 : θ < π)
    (hg1 : 0 < g) (hg2 : g < π) :
    FocalLengthToFov (SensorWidth f θ) (FovToFocalLength (SensorWidth f θ) g)
      = g := by
  have hFL := goalFL_pos hf h1 h2 hg1 hg2
  rw [fov_of_trial_fl hf h1 h2 _ hFL, goalFL_eq]
  have ht := tan_half_pos h1 h2
  have htg := tan_half_pos hg1 hg2
  have ha : tan (θ / 2) * f ≠ 0 := by positivity
  have hb : tan (g / 2) ≠ 0 := ne_of_gt htg
  have hq : tan (θ / 2) * f / (tan (θ / 2) * f / tan (g / 2)) = tan (g / 2) := by
    field_simp
  rw [hq, arctan_tan (by linarith [pi_pos]) (by linarith)]
  ring

/-- C4: the optics conversions are mutually consistent inverses: for every
`focalLength > 0` and `fov ∈ (0, π)`,
`FocalLengthToFov (SensorWidth focalLength fov) focalLength = fov`,
exactly over the reals. -/
theorem optics_roundtrip (focalLength fov : ℝ) (hf : 0 < focalLength)
    (h1 : 0 < fov) (h2 : fov < π) :
    FocalLengthToFov (SensorWidth focalLength fov) focalLength = fov :=
  roundtrip_core hf h1 h2

/-- Witness for C4 at `focalLength = 1`, `fov = π / 2`. -/
theorem optics_roundtrip_witness :
    FocalLengthToFov (SensorWidth 1 (π / 2)) 1 = π / 2 :=
  optics_roundtrip 1 (π / 2) (by norm_num) (by positivity)
    (by linarith [pi_pos])

/-! ### Branch lemmas for the tick function -/

lemma resolveGoal_of_clean {s : PluginState} (hz : s.zoomChanged = false) :
    resolveGoal s = (s, false) := by
  simp [resolveGoal, hz]

lemma resolveGoal_of_dirty {s : PluginState} (hz : s.zoomChanged = true) :
    resolveGoal s =
      ({ s with goalHfov := s.refHfov / clamp s.zoomCommand minZoom s.maxZoom, zoomChanged := false },
        decide (|s.zoomCommand - clamp s.zoomCommand minZoom s.maxZoom| > eps)) := by
  simp [resolveGoal, hz]

lemma resolveGoal_slewRate (s : PluginState) :
    (resolveGoal s).1.slewRate = s.slewRate := by
  cases hz : s.zoomChanged
  · rw [resolveGoal_of_clean hz]
  · rw [resolveGoal_of_dirty hz]

lemma resolveGoal_zoomChanged (s : PluginState) :
    (resolveGoal s).1.zoomChanged = false ∨ (resolveGoal s).1 = s := by
  cases hz : s.zoomChanged
  · right; rw [resolveGoal_of_clean hz]
  · left; rw [resolveGoal_of_dirty hz]

lemma PreUpdate_invalid {s : PluginState} {cam : CameraComp}
    {inp : TickInput} (hv : s.isValidConfig = false) :
    PreUpdate s cam inp = ⟨s, cam, false, false⟩ := by
  simp [PreUpdate, hv]

lemma PreUpdate_acquire {s : PluginState} {cam : CameraComp}
    {inp : TickInput} (hv : s.isValidConfig = true) (hc : s.hasCamera = false) :
    PreUpdate s cam inp =
      ⟨{ s with hasCamera := inp.acquireSucceeds }, cam, false, false⟩ := by
  simp [PreUpdate, hv, hc]

lemma PreUpdate_noComp {s : PluginState} {cam : CameraComp}
    {inp : TickInput} (hv : s.isValidConfig = true) (hc : s.hasCamera = true)
    (hcomp : inp.compPresent = false) :
    PreUpdate s cam inp = ⟨s, cam, false, false⟩ := by
  simp [PreUpdate, hv, hc, hcomp]

lemma PreUpdate_noSdf {s : PluginState} {cam : CameraComp}
    {inp : TickInput} (hv : s.isValidConfig = true) (hc : s.hasCamera = true)
    (hcomp : inp.compPresent = true) (hsdf : inp.sdfPresent = false) :
    PreUpdate s cam inp = ⟨(resolveGoal s).1, cam, false, (resolveGoal s).2⟩ := by
  simp [PreUpdate, hv, hc, hcomp, hsdf]

lemma PreUpdate_earlyExit {s : PluginState} {cam : CameraComp}
    {inp : TickInput} (hv : s.isValidConfig = true) (hc : s.hasCamera = true)
    (hcomp : inp.compPresent = true) (hsdf : inp.sdfPresent = true)
    (hee : |(resolveGoal s).1.goalHfov - cam.hfov| < eps) :
    PreUpdate s cam inp = ⟨(resolveGoal s).1, cam, false, (resolveGoal s).2⟩ := by
  simp [PreUpdate, hv, hc, hcomp, hsdf, hee]

/-- The FOV value written by a full (non-early-exit) tick, in terms of
the pre-tick state and camera. -/
noncomputable def tickNewHfov (s : PluginState) (cam : CameraComp)
    (dt : ℝ) : ℝ :=
  FocalLengthToFov (SensorWidth cam.focalLength cam.hfov)
    (slewFocalLength (resolveGoal s).1.slewRate dt cam.focalLength
      (FovToFocalLength (SensorWidth cam.focalLength cam.hfov)
        (resolveGoal s).1.goalHfov))

lemma PreUpdate_slew {s : PluginState} {cam : CameraComp}
    {inp : TickInput} (hv : s.isValidConfig = true) (hc : s.hasCamera = true)
    (hcomp : inp.compPresent = true) (hsdf : inp.sdfPresent = true)
    (hne : ¬ |(resolveGoal s).1.goalHfov - cam.hfov| < eps) :
    PreUpdate s cam inp =
      ⟨(resolveGoal s).1, { cam with hfov := tickNewHfov s cam inp.dt },
        true, (resolveGoal s).2⟩ := by
  simp [PreUpdate, tickNewHfov, hv, hc, hcomp, hsdf, hne]

/-! ### Arithmetic of the finite-rate slew step -/

lemma slew_arith (r dt cur goal : ℝ) (hr : 0 ≤ r) (hdt : 0 ≤ dt) :
    |slewFocalLength (SlewRate.fin r) dt cur goal - cur|
        = min (r * dt) |cur - goal|
      ∧ min cur goal ≤ slewFocalLength (SlewRate.fin r) dt cur goal
      ∧ slewFocalLength (SlewRate.fin r) dt cur goal ≤ max cur goal := by
  have hd0 : 0 ≤ min (r * dt) |cur - goal| :=
    le_min (mul_nonneg hr hdt) (abs_nonneg _)
  have hdle : min (r * dt) |cur - goal| ≤ |cur - goal| := min_le_right _ _
  by_cases h : goal > cur
  · have hnew : slewFocalLength (SlewRate.fin r) dt cur goal
        = cur + min (r * dt) |cur - goal| := by
      simp only [slewFocalLength]
      rw [if_pos h]
    have habs : |cur - goal| = goal - cur := by
      rw [abs_sub_comm]
      exact abs_of_pos (by linarith)
    rw [habs] at hd0 hdle ⊢
    refine ⟨?_, ?_, ?_⟩
    · rw [hnew, habs, add_sub_cancel_left, abs_of_nonneg hd0]
    · rw [hnew, habs, min_eq_left (le_of_lt h)]
      linarith
    · rw [hnew, habs, max_eq_right (le_of_lt h)]
      linarith
  · have hle : goal ≤ cur := le_of_not_lt h
    have hnew : slewFocalLength (SlewRate.fin r) dt cur goal
        = cur - min (r * dt) |cur - goal| := by
      simp only [slewFocalLength]
      rw [if_neg h]
    have habs : |cur - goal| = cur - goal := abs_of_nonneg (by linarith)
    rw [habs] at hd0 hdle ⊢
    refine ⟨?_, ?_, ?_⟩
    · rw [hnew, habs]
      have hc : cur - min (r * dt) (cur - goal) - cur
          = -(min (r * dt) (cur - goal)) := by ring
      rw [hc, abs_neg, abs_of_nonneg hd0]
    · rw [hnew, habs, min_eq_right hle]
      linarith
    · rw [hnew, habs, max_eq_left hle]
      linarith

/-- C3: with an infinite slew rate, a tick that is not an early exit sets
the camera FOV directly to the resolved goal FOV
`refHfov / clamp(zoomCommand, 1, maxZoom)` — exactly over the reals
(hence within any epsilon). -/
theorem instant_zoom (s : PluginState) (cam : CameraComp) (inp : TickInput)
    (hv : s.isValidConfig = true) (hc : s.hasCamera = true)
    (hcomp : inp.compPresent = true) (hsdf : inp.sdfPresent = true)
    (hz : s.zoomChanged = true) (hsl : s.slewRate = SlewRate.inf)
    (hF : 0 < cam.focalLength) (hθ1 : 0 < cam.hfov) (hθ2 : cam.hfov < π)
    (hg1 : 0 < s.refHfov / clamp s.zoomCommand minZoom s.maxZoom)
    (hg2 : s.refHfov / clamp s.zoomCommand minZoom s.maxZoom < π)
    (hne : ¬ |s.refHfov / clamp s.zoomCommand minZoom s.maxZoom - cam.hfov|
        < eps) :
    (PreUpdate s cam inp).camera.hfov
        = s.refHfov / clamp s.zoomCommand minZoom s.maxZoom
      ∧ (PreUpdate s cam inp).state.goalHfov
        = s.refHfov / clamp s.zoomCommand minZoom s.maxZoom := by
  have hgoal : (resolveGoal s).1.goalHfov
      = s.refHfov / clamp s.zoomCommand minZoom s.maxZoom := by
    rw [resolveGoal_of_dirty hz]
  have hslew : (resolveGoal s).1.slewRate = SlewRate.inf := by
    rw [resolveGoal_slewRate, hsl]
  rw [PreUpdate_slew hv hc hcomp hsdf (by rw [hgoal]; exact hne)]
  constructor
  · show tickNewHfov s cam inp.dt = _
    rw [tickNewHfov, hslew, hgoal]
    exact fov_at_goalFL hF hθ1 hθ2 hg1 hg2
  · show (resolveGoal s).1.goalHfov = _
    exact hgoal

/-- Witness for C3: Scenario A.  `refHfov = 2`, `maxZoom = 10`,
command `z = 2`, infinite slew rate, camera FOV `2`, lens focal
length `1`: one tick yields goal and camera FOV `1`. -/
theorem instant_zoom_witness :
    (PreUpdate ⟨true, true, true, 2, 2, 2, 10, SlewRate.inf⟩ ⟨2, 1⟩
        ⟨1, true, true, true⟩).camera.hfov = 1
      ∧ (PreUpdate ⟨true, true, true, 2, 2, 2, 10, SlewRate.inf⟩ ⟨2, 1⟩
        ⟨1, true, true, true⟩).state.goalHfov = 1 := by
  have hcl : clamp 2 minZoom 10 = 2 := by norm_num [clamp, minZoom]
  have hone : (2 : ℝ) / clamp 2 minZoom 10 = 1 := by rw [hcl]; norm_num
  have h := instant_zoom ⟨true, true, true, 2, 2, 2, 10, SlewRate.inf⟩ ⟨2, 1⟩
      ⟨1, true, true, true⟩ rfl rfl rfl rfl rfl rfl (by norm_num)
      (by norm_num) (by show (2 : ℝ) < π; linarith [pi_gt_three])
      (by show (0 : ℝ) < 2 / clamp 2 minZoom 10; rw [hone]; norm_num)
      (by show (2 : ℝ) / clamp 2 minZoom 10 < π; rw [hone]
          linarith [pi_gt_three])
      (by show ¬ |(2 : ℝ) / clamp 2 minZoom 10 - 2| < eps
          rw [hone]; norm_num [eps])
  have h1 : (PreUpdate ⟨true, true, true, 2, 2, 2, 10, SlewRate.inf⟩ ⟨2, 1⟩
      ⟨1, true, true, true⟩).camera.hfov = 2 / clamp 2 minZoom 10 := h.1
  have h2 : (PreUpdate ⟨true, true, true, 2, 2, 2, 10, SlewRate.inf⟩ ⟨2, 1⟩
      ⟨1, true, true, true⟩).state.goalHfov = 2 / clamp 2 minZoom 10 := h.2
  exact ⟨by rw [h1, hone], by rw [h2, hone]⟩

/-! ### Betweenness of the slewed FOV -/

/-- The FOV is antitone in the trial focal length. -/
lemma fov_anti {f θ : ℝ} (hf : 0 < f) (h1 : 0 < θ) (h2 : θ < π)
    {x y : ℝ} (hx : 0 < x) (hxy : x ≤ y) :
    FocalLengthToFov (SensorWidth f θ) y ≤ FocalLengthToFov (SensorWidth f θ) x := by
  have hy : 0 < y := lt_of_lt_of_le hx hxy
  rw [fov_of_trial_fl hf h1 h2 x hx, fov_of_trial_fl hf h1 h2 y hy]
  have ht := tan_half_pos h1 h2
  have hnum : 0 ≤ tan (θ / 2) * f := by positivity
  have hdiv := div_le_div_of_nonneg_left hnum hx hxy
  have harc := arctan_strictMono.monotone hdiv
  linarith

/-- The goal focal length of a tick, from the camera's lens focal length
and current FOV (source lines 443-449). -/
noncomputable def goalFocalLength (s : PluginState) (cam : CameraComp) : ℝ :=
  FovToFocalLength (SensorWidth cam.focalLength cam.hfov) s.goalHfov

/-- The new focal length computed by a tick with a clean dirty flag. -/
noncomputable def newFocalLength (s : PluginState) (cam : CameraComp)
    (dt : ℝ) : ℝ :=
  slewFocalLength s.slewRate dt cam.focalLength (goalFocalLength s cam)

/-- The finite-rate slew step maps the FOV into the closed interval
between the current FOV and the goal FOV. -/
lemma slew_fov_between {f θ g r dt : ℝ} (hf : 0 < f) (h1 : 0 < θ)
    (h2 : θ < π) (hg1 : 0 < g) (hg2 : g < π) (hr : 0 ≤ r) (hdt : 0 ≤ dt) :
    min θ g ≤ FocalLengthToFov (SensorWidth f θ)
        (slewFocalLength (SlewRate.fin r) dt f
          (FovToFocalLength (SensorWidth f θ) g))
      ∧ FocalLengthToFov (SensorWidth f θ)
        (slewFocalLength (SlewRate.fin r) dt f
          (FovToFocalLength (SensorWidth f θ) g)) ≤ max θ g := by
  have hgFL : 0 < FovToFocalLength (SensorWidth f θ) g :=
    goalFL_pos hf h1 h2 hg1 hg2
  obtain ⟨-, hlo, hhi⟩ :=
    slew_arith r dt f (FovToFocalLength (SensorWidth f θ) g) hr hdt
  have hnew : 0 < slewFocalLength (SlewRate.fin r) dt f
      (FovToFocalLength (SensorWidth f θ) g) :=
    lt_of_lt_of_le (lt_min hf hgFL) hlo
  have hff : FocalLengthToFov (SensorWidth f θ) f = θ := roundtrip_core hf h1 h2
  have hfg : FocalLengthToFov (SensorWidth f θ)
      (FovToFocalLength (SensorWidth f θ) g) = g :=
    fov_at_goalFL hf h1 h2 hg1 hg2
  rcases le_total f (FovToFocalLength (SensorWidth f θ) g) with hc | hc
  · rw [min_eq_left hc] at hlo
    rw [max_eq_right hc] at hhi
    have hub := le_of_le_of_eq (fov_anti hf h1 h2 hf hlo) hff
    have hlb := le_of_eq_of_le hfg.symm (fov_anti hf h1 h2 hnew hhi)
    exact ⟨le_trans (min_le_right _ _) hlb, le_trans hub (le_max_left _ _)⟩
  · rw [min_eq_right hc] at hlo
    rw [max_eq_left hc] at hhi
    have hlb := le_of_eq_of_le hff.symm (fov_anti hf h1 h2 hnew hhi)
    have hub := le_of_le_of_eq (fov_anti hf h1 h2 hgFL hlo) hfg
    exact ⟨le_trans (min_le_left _ _) hlb, le_trans hub (le_max_right _ _)⟩

lemma abs_sub_le_of_between {a b x : ℝ} (h1 : min a b ≤ x)
    (h2 : x ≤ max a b) : |x - b| ≤ |a - b| := by
  rcases le_total a b with h | h
  · rw [min_eq_left h] at h1
    rw [max_eq_right h] at h2
    rw [abs_of_nonpos (by linarith), abs_of_nonpos (by linarith)]
    linarith
  · rw [min_eq_right h] at h1
    rw [max_eq_left h] at h2
    rw [abs_of_nonneg (by linarith), abs_of_nonneg (by linarith)]
    linarith

lemma between_trans {a b x y : ℝ} (hx1 : min a b ≤ x) (hx2 : x ≤ max a b)
    (hy1 : min x b ≤ y) (hy2 : y ≤ max x b) :
    min a b ≤ y ∧ y ≤ max a b := by
  rcases le_total a b with h | h
  · rw [min_eq_left h] at hx1
    rw [max_eq_right h] at hx2
    rw [min_eq_left hx2] at hy1
    rw [max_eq_right hx2] at hy2
    exact ⟨by rw [min_eq_left h]; linarith, by rw [max_eq_right h]; linarith⟩
  · rw [min_eq_right h] at hx1
    rw [max_eq_left h] at hx2
    rw [min_eq_right hx1] at hy1
    rw [max_eq_left hx1] at hy2
    exact ⟨by rw [min_eq_right h]; linarith, by rw [max_eq_left h]; linarith⟩

/-! ### Per-tick and multi-tick behaviour with a clean dirty flag -/

lemma PreUpdate_state_clean {s : PluginState} {cam : CameraComp}
    {inp : TickInput} (hv : s.isValidConfig = true) (hc : s.hasCamera = true)
    (hz : s.zoomChanged = false) : (PreUpdate s cam inp).state = s := by
  have hrg := resolveGoal_of_clean hz
  cases hcomp : inp.compPresent
  · rw [PreUpdate_noComp hv hc hcomp]
  · cases hsdf : inp.sdfPresent
    · rw [PreUpdate_noSdf hv hc hcomp hsdf, hrg]
    · by_cases hee : |(resolveGoal s).1.goalHfov - cam.hfov| < eps
      · rw [PreUpdate_earlyExit hv hc hcomp hsdf hee, hrg]
      · rw [PreUpdate_slew hv hc hcomp hsdf hee, hrg]

/-- Invariant carried across ticks for the finite-rate convergence
argument: active controller, clean dirty flag, fixed finite nonnegative
rate, positive lens focal length, and FOVs in `(0, π)`. -/
def Inv (r : ℝ) (s : PluginState) (cam : CameraComp) : Prop :=
  s.isValidConfig = true ∧ s.hasCamera = true ∧ s.zoomChanged = false
    ∧ s.slewRate = SlewRate.fin r ∧ 0 ≤ r
    ∧ 0 < cam.focalLength ∧ 0 < cam.hfov ∧ cam.hfov < π
    ∧ 0 < s.goalHfov ∧ s.goalHfov < π

lemma PreUpdate_cam_toward {r : ℝ} {s : PluginState} {cam : CameraComp}
    {inp : TickInput} (h : Inv r s cam) (hdt : 0 ≤ inp.dt) :
    (PreUpdate s cam inp).camera.focalLength = cam.focalLength
      ∧ min cam.hfov s.goalHfov ≤ (PreUpdate s cam inp).camera.hfov
      ∧ (PreUpdate s cam inp).camera.hfov ≤ max cam.hfov s.goalHfov := by
  obtain ⟨hv, hc, hz, hsl, hr, hF, hθ1, hθ2, hg1, hg2⟩ := h
  have hrg := resolveGoal_of_clean hz
  have htriv : min cam.hfov s.goalHfov ≤ cam.hfov
      ∧ cam.hfov ≤ max cam.hfov s.goalHfov :=
    ⟨min_le_left _ _, le_max_left _ _⟩
  cases hcomp : inp.compPresent
  · rw [PreUpdate_noComp hv hc hcomp]
    exact ⟨rfl, htriv.1, htriv.2⟩
  · cases hsdf : inp.sdfPresent
    · rw [PreUpdate_noSdf hv hc hcomp hsdf]
      exact ⟨rfl, htriv.1, htriv.2⟩
    · by_cases hee : |(resolveGoal s).1.goalHfov - cam.hfov| < eps
      · rw [PreUpdate_earlyExit hv hc hcomp hsdf hee]
        exact ⟨rfl, htriv.1, htriv.2⟩
      · rw [PreUpdate_slew hv hc hcomp hsdf hee]
        refine ⟨rfl, ?_, ?_⟩
        · show min cam.hfov s.goalHfov ≤ tickNewHfov s cam inp.dt
          rw [tickNewHfov, hrg, hsl]
          exact (slew_fov_between hF hθ1 hθ2 hg1 hg2 hr hdt).1
        · show tickNewHfov s cam inp.dt ≤ max cam.hfov s.goalHfov
          rw [tickNewHfov, hrg, hsl]
          exact (slew_fov_between hF hθ1 hθ2 hg1 hg2 hr hdt).2

lemma PreUpdate_Inv {r : ℝ} {s : PluginState} {cam : CameraComp}
    {inp : TickInput} (h : Inv r s cam) (hdt : 0 ≤ inp.dt) :
    (PreUpdate s cam inp).state = s
      ∧ Inv r (PreUpdate s cam inp).state (PreUpdate s cam inp).camera := by
  obtain ⟨hv, hc, hz, hsl, hr, hF, hθ1, hθ2, hg1, hg2⟩ := h
  have hstate := @PreUpdate_state_clean s cam inp hv hc hz
  obtain ⟨hfl, hlo, hhi⟩ :=
    PreUpdate_cam_toward ⟨hv, hc, hz, hsl, hr, hF, hθ1, hθ2, hg1, hg2⟩ hdt
  refine ⟨hstate, ?_⟩
  rw [hstate]
  refine ⟨hv, hc, hz, hsl, hr, ?_, ?_, ?_, hg1, hg2⟩
  · rw [hfl]; exact hF
  · exact lt_of_lt_of_le (lt_min hθ1 hg1) hlo
  · exact lt_of_le_of_lt hhi (max_lt hθ2 hg2)

lemma run_nil (s : PluginState) (cam : CameraComp) :
    run s cam [] = (s, cam, false) := rfl

lemma run_cons (s : PluginState) (cam : CameraComp) (i : TickInput)
    (is : List TickInput) :
    run s cam (i :: is)
      = ((run (PreUpdate s cam i).state (PreUpdate s cam i).camera is).1,
        (run (PreUpdate s cam i).state (PreUpdate s cam i).camera is).2.1,
        (PreUpdate s cam i).setChanged
          || (run (PreUpdate s cam i).state (PreUpdate s cam i).camera is).2.2) :=
  rfl

lemma run_concat : ∀ (is : List TickInput) (s : PluginState)
    (cam : CameraComp) (i : TickInput),
    (run s cam (is ++ [i])).2.1
      = (PreUpdate (run s cam is).1 (run s cam is).2.1 i).camera
  | [], _, _, _ => rfl
  | a :: as, s, cam, i => by
      show (run (PreUpdate s cam a).state (PreUpdate s cam a).camera
          (as ++ [i])).2.1 = _
      rw [run_concat as]
      exact rfl

lemma run_toward {r : ℝ} : ∀ (is : List TickInput) (s : PluginState)
    (cam : CameraComp), Inv r s cam → (∀ i ∈ is, 0 ≤ i.dt) →
    (run s cam is).1 = s
      ∧ (run s cam is).2.1.focalLength = cam.focalLength
      ∧ min cam.hfov s.goalHfov ≤ (run s cam is).2.1.hfov
      ∧ (run s cam is).2.1.hfov ≤ max cam.hfov s.goalHfov
      ∧ Inv r (run s cam is).1 (run s cam is).2.1
  | [], s, cam, h, _ => ⟨rfl, rfl, min_le_left _ _, le_max_left _ _, h⟩
  | i :: is, s, cam, h, hdts => by
      obtain ⟨hstate, hInv⟩ := PreUpdate_Inv h (hdts i (by simp))
      obtain ⟨hfl, hlo, hhi⟩ := PreUpdate_cam_toward h (hdts i (by simp))
      obtain ⟨ih1, ih2, ih3, ih4, ih5⟩ := run_toward is (PreUpdate s cam i).state
        (PreUpdate s cam i).camera hInv (fun j hj => hdts j (by simp [hj]))
      have hgoal : (PreUpdate s cam i).state.goalHfov = s.goalHfov := by
        rw [hstate]
      rw [hgoal] at ih3 ih4
      have hbt := between_trans hlo hhi ih3 ih4
      exact ⟨ih1.trans hstate, ih2.trans hfl, hbt.1, hbt.2, ih5⟩

/-- C1: on a tick with finite `slewRate = r ≥ 0` and `dt ≥ 0` that does
not take the early exit, the computed new focal length moves from the
current focal length toward the goal focal length by exactly
`min (r * dt) |cur - goal|`; hence the move is bounded by `r * dt` and
never passes beyond the goal, and over repeated ticks with a fixed goal
the FOV stays in the interval between its start value and the goal and
its distance to the goal decreases monotonically. -/
theorem slew_rate_limited (s : PluginState) (cam : CameraComp)
    (inp : TickInput) (r : ℝ)
    (hv : s.isValidConfig = true) (hc : s.hasCamera = true)
    (hcomp : inp.compPresent = true) (hsdf : inp.sdfPresent = true)
    (hz : s.zoomChanged = false) (hsl : s.slewRate = SlewRate.fin r)
    (hr : 0 ≤ r) (hdt : 0 ≤ inp.dt)
    (hne : ¬ |s.goalHfov - cam.hfov| < eps)
    (hF : 0 < cam.focalLength) (hθ1 : 0 < cam.hfov) (hθ2 : cam.hfov < π)
    (hg1 : 0 < s.goalHfov) (hg2 : s.goalHfov < π) :
    |newFocalLength s cam inp.dt - cam.focalLength|
        = min (r * inp.dt) |cam.focalLength - goalFocalLength s cam|
      ∧ |newFocalLength s cam inp.dt - cam.focalLength| ≤ r * inp.dt
      ∧ min cam.focalLength (goalFocalLength s cam)
          ≤ newFocalLength s cam inp.dt
      ∧ newFocalLength s cam inp.dt
          ≤ max cam.focalLength (goalFocalLength s cam)
      ∧ (PreUpdate s cam inp).camera.hfov
          = FocalLengthToFov (SensorWidth cam.focalLength cam.hfov)
              (newFocalLength s cam inp.dt)
      ∧ min cam.hfov s.goalHfov ≤ (PreUpdate s cam inp).camera.hfov
      ∧ (PreUpdate s cam inp).camera.hfov ≤ max cam.hfov s.goalHfov
      ∧ |(PreUpdate s cam inp).camera.hfov - s.goalHfov|
          ≤ |cam.hfov - s.goalHfov|
      ∧ ∀ is : List TickInput, (∀ i ∈ is, 0 ≤ i.dt) →
          (min cam.hfov s.goalHfov ≤ (run s cam is).2.1.hfov
              ∧ (run s cam is).2.1.hfov ≤ max cam.hfov s.goalHfov)
            ∧ ∀ i : TickInput, 0 ≤ i.dt →
                |(run s cam (is ++ [i])).2.1.hfov - s.goalHfov|
                  ≤ |(run s cam is).2.1.hfov - s.goalHfov| := by
  have hInv : Inv r s cam := ⟨hv, hc, hz, hsl, hr, hF, hθ1, hθ2, hg1, hg2⟩
  have hNFL : newFocalLength s cam inp.dt
      = slewFocalLength (SlewRate.fin r) inp.dt cam.focalLength
        (goalFocalLength s cam) := by
    rw [newFocalLength, hsl]
  obtain ⟨ha1, ha2, ha3⟩ :=
    slew_arith r inp.dt cam.focalLength (goalFocalLength s cam) hr hdt
  obtain ⟨-, h6, h7⟩ := PreUpdate_cam_toward hInv hdt
  have hne' : ¬ |(resolveGoal s).1.goalHfov - cam.hfov| < eps := by
    rw [resolveGoal_of_clean hz]
    exact hne
  refine ⟨by rw [hNFL]; exact ha1, ?_, by rw [hNFL]; exact ha2,
    by rw [hNFL]; exact ha3, ?_, h6, h7, abs_sub_le_of_between h6 h7, ?_⟩
  · rw [hNFL, ha1]
    exact min_le_left _ _
  · rw [PreUpdate_slew hv hc hcomp hsdf hne']
    show tickNewHfov s cam inp.dt = _
    rw [tickNewHfov, resolveGoal_of_clean hz]
    rfl
  · intro is hds
    obtain ⟨hrs, -, h93, h94, hrInv⟩ := run_toward is s cam hInv hds
    refine ⟨⟨h93, h94⟩, ?_⟩
    intro i hdti
    rw [run_concat is s cam i]
    obtain ⟨-, hbl, hbh⟩ := PreUpdate_cam_toward hrInv hdti
    have hgn : (run s cam is).1.goalHfov = s.goalHfov := by rw [hrs]
    rw [hgn] at hbl hbh
    exact abs_sub_le_of_between hbl hbh

/-- Witness for C1 at `r = 1`, `dt = 1`, focal length `1`, FOV `π / 2`,
goal FOV `1`: the focal length moves by at most `1 * 1`. -/
theorem slew_rate_limited_witness :
    |newFocalLength ⟨true, true, false, 1, 2, 1, 10, SlewRate.fin 1⟩
        ⟨π / 2, 1⟩ 1 - 1| ≤ 1 * 1 := by
  have h := slew_rate_limited
    ⟨true, true, false, 1, 2, 1, 10, SlewRate.fin 1⟩ ⟨π / 2, 1⟩
    ⟨1, true, true, true⟩ 1 rfl rfl rfl rfl rfl rfl (by norm_num)
    (by norm_num)
    (by show ¬ |(1 : ℝ) - π / 2| < eps
        rw [abs_of_nonpos (by linarith [pi_gt_three])]
        norm_num [eps]
        linarith [pi_gt_three])
    (by norm_num) (by show (0 : ℝ) < π / 2; positivity)
    (by show π / 2 < π; linarith [pi_pos]) (by norm_num)
    (by show (1 : ℝ) < π; linarith [pi_gt_three])
  exact h.2.1

/-! ### Goal resolution, warning, and degenerate-rate lemmas -/

lemma PreUpdate_state_resolved {s : PluginState} {cam : CameraComp}
    {inp : TickInput} (hv : s.isValidConfig = true) (hc : s.hasCamera = true)
    (hcomp : inp.compPresent = true) :
    (PreUpdate s cam inp).state = (resolveGoal s).1
      ∧ (PreUpdate s cam inp).warned = (resolveGoal s).2 := by
  cases hsdf : inp.sdfPresent
  · rw [PreUpdate_noSdf hv hc hcomp hsdf]
    exact ⟨rfl, rfl⟩
  · by_cases hee : |(resolveGoal s).1.goalHfov - cam.hfov| < eps
    · rw [PreUpdate_earlyExit hv hc hcomp hsdf hee]
      exact ⟨rfl, rfl⟩
    · rw [PreUpdate_slew hv hc hcomp hsdf hee]
      exact ⟨rfl, rfl⟩

lemma clamp_mem {v lo hi : ℝ} (h : lo ≤ hi) :
    lo ≤ clamp v lo hi ∧ clamp v lo hi ≤ hi := by
  unfold clamp
  split_ifs with h1 h2
  · exact ⟨le_refl lo, h⟩
  · exact ⟨h, le_refl hi⟩
  · exact ⟨le_of_not_lt h1, le_of_not_lt h2⟩

lemma slew_zero {r dt : ℝ} (h : r * dt = 0) (cur goal : ℝ) :
    slewFocalLength (SlewRate.fin r) dt cur goal = cur := by
  have hd : min (r * dt) |cur - goal| = 0 := by
    rw [h]
    exact min_eq_left (abs_nonneg _)
  simp only [slewFocalLength]
  rw [hd]
  simp

/-- C2: when the dirty flag is set, the tick resolves the goal to
`refHfov / clamp(zoomCommand, minZoom, maxZoom)`, a pure function of the
command and the immutable configuration with the clamped factor in
`[minZoom, maxZoom]`; when the flag is clear the stored goal is not
recomputed. -/
theorem goal_resolution (s : PluginState) (cam : CameraComp)
    (inp : TickInput)
    (hv : s.isValidConfig = true) (hc : s.hasCamera = true)
    (hcomp : inp.compPresent = true) (hmax : 1 ≤ s.maxZoom) :
    (s.zoomChanged = true →
        (PreUpdate s cam inp).state.goalHfov
            = s.refHfov / clamp s.zoomCommand minZoom s.maxZoom
          ∧ minZoom ≤ clamp s.zoomCommand minZoom s.maxZoom
          ∧ clamp s.zoomCommand minZoom s.maxZoom ≤ s.maxZoom)
      ∧ (s.zoomChanged = false →
          (PreUpdate s cam inp).state.goalHfov = s.goalHfov) := by
  obtain ⟨hst, -⟩ := @PreUpdate_state_resolved s cam inp hv hc hcomp
  have hbounds := @clamp_mem s.zoomCommand minZoom s.maxZoom
    (by simpa [minZoom] using hmax)
  constructor
  · intro hz
    rw [hst, resolveGoal_of_dirty hz]
    exact ⟨rfl, hbounds.1, hbounds.2⟩
  · intro hz
    rw [hst, resolveGoal_of_clean hz]

/-- Witness for C2: Scenario B.  Command `z = 20` with `maxZoom = 10` is
clamped to `10` and the goal becomes `refHfov / 10`. -/
theorem goal_resolution_witness :
    (PreUpdate ⟨true, true, true, 20, 2, 2, 10, SlewRate.inf⟩ ⟨2, 1⟩
        ⟨1, true, true, true⟩).state.goalHfov = 2 / 10 := by
  have hcl : clamp 20 minZoom 10 = 10 := by norm_num [clamp, minZoom]
  have h := goal_resolution ⟨true, true, true, 20, 2, 2, 10, SlewRate.inf⟩
    ⟨2, 1⟩ ⟨1, true, true, true⟩ rfl rfl rfl (by norm_num)
  have h1 : (PreUpdate ⟨true, true, true, 20, 2, 2, 10, SlewRate.inf⟩ ⟨2, 1⟩
      ⟨1, true, true, true⟩).state.goalHfov = 2 / clamp 20 minZoom 10 :=
    (h.1 rfl).1
  rw [h1, hcl]

/-- C8: on a command-change tick, the warning diagnostic fires exactly
when clamping moved the commanded value by more than machine epsilon,
and the goal is computed from the clamped (never the raw) command; the
tick always completes. -/
theorem clamp_warning (s : PluginState) (cam : CameraComp) (inp : TickInput)
    (hv : s.isValidConfig = true) (hc : s.hasCamera = true)
    (hcomp : inp.compPresent = true) :
    (s.zoomChanged = true →
        ((PreUpdate s cam inp).warned = true
            ↔ eps < |s.zoomCommand - clamp s.zoomCommand minZoom s.maxZoom|)
          ∧ (PreUpdate s cam inp).state.goalHfov
            = s.refHfov / clamp s.zoomCommand minZoom s.maxZoom)
      ∧ (s.zoomChanged = false → (PreUpdate s cam inp).warned = false) := by
  obtain ⟨hst, hwr⟩ := @PreUpdate_state_resolved s cam inp hv hc hcomp
  constructor
  · intro hz
    rw [hst, hwr, resolveGoal_of_dirty hz]
    refine ⟨?_, rfl⟩
    simp [decide_eq_true_eq]
  · intro hz
    rw [hwr, resolveGoal_of_clean hz]

/-- Witness for C8: Scenario B values: clamping `20` to `10` moves the
command by `10 > eps`, so the warning fires. -/
theorem clamp_warning_witness :
    (PreUpdate ⟨true, true, true, 20, 2, 2, 10, SlewRate.fin 1⟩ ⟨2, 1⟩
        ⟨1, true, true, true⟩).warned = true := by
  have hcl : clamp 20 minZoom 10 = 10 := by norm_num [clamp, minZoom]
  have h := clamp_warning ⟨true, true, true, 20, 2, 2, 10, SlewRate.fin 1⟩
    ⟨2, 1⟩ ⟨1, true, true, true⟩ rfl rfl rfl
  refine ((h.1 rfl).1).mpr ?_
  show eps < |(20 : ℝ) - clamp 20 minZoom 10|
  rw [hcl]
  norm_num [eps]

/-- With a finite rate and `r * dt = 0` the tick cannot move the FOV. -/
lemma hfov_unchanged_of_zero {s : PluginState} {cam : CameraComp}
    {inp : TickInput} {r : ℝ}
    (hsl : s.slewRate = SlewRate.fin r) (hrdt : r * inp.dt = 0)
    (hF : 0 < cam.focalLength) (hθ1 : 0 < cam.hfov) (hθ2 : cam.hfov < π) :
    (PreUpdate s cam inp).camera.hfov = cam.hfov := by
  cases hv : s.isValidConfig
  · rw [PreUpdate_invalid hv]
  · cases hc : s.hasCamera
    · rw [PreUpdate_acquire hv hc]
    · cases hcomp : inp.compPresent
      · rw [PreUpdate_noComp hv hc hcomp]
      · cases hsdf : inp.sdfPresent
        · rw [PreUpdate_noSdf hv hc hcomp hsdf]
        · by_cases hee : |(resolveGoal s).1.goalHfov - cam.hfov| < eps
          · rw [PreUpdate_earlyExit hv hc hcomp hsdf hee]
          · rw [PreUpdate_slew hv hc hcomp hsdf hee]
            show tickNewHfov s cam inp.dt = cam.hfov
            rw [tickNewHfov, resolveGoal_slewRate, hsl, slew_zero hrdt]
            exact roundtrip_core hF hθ1 hθ2

/-- C7: with `r * dt = 0` (covering both `dt = 0` at any finite rate and
`slewRate = 0` at any `dt`), the slew step returns the current focal
length unchanged for every goal, and the tick leaves the camera FOV
unchanged; the computation is total (no division by zero or
non-termination). -/
theorem degenerate_no_motion (s : PluginState) (cam : CameraComp)
    (inp : TickInput) (r : ℝ)
    (hsl : s.slewRate = SlewRate.fin r) (hrdt : r * inp.dt = 0)
    (hF : 0 < cam.focalLength) (hθ1 : 0 < cam.hfov) (hθ2 : cam.hfov < π) :
    (PreUpdate s cam inp).camera.hfov = cam.hfov
      ∧ ∀ goal : ℝ,
          slewFocalLength (SlewRate.fin r) inp.dt cam.focalLength goal
            = cam.focalLength :=
  ⟨hfov_unchanged_of_zero hsl hrdt hF hθ1 hθ2,
    fun goal => slew_zero hrdt cam.focalLength goal⟩

/-- Witness for C7 at `slewRate = 0`, `dt = 5`, off-goal: the FOV does
not move. -/
theorem degenerate_no_motion_witness :
    (PreUpdate ⟨true, true, false, 1, 2, 1, 10, SlewRate.fin 0⟩ ⟨π / 2, 1⟩
        ⟨5, true, true, true⟩).camera.hfov = π / 2 := by
  have h := degenerate_no_motion
    ⟨true, true, false, 1, 2, 1, 10, SlewRate.fin 0⟩ ⟨π / 2, 1⟩
    ⟨5, true, true, true⟩ 0 rfl (by norm_num) (by norm_num)
    (by show (0 : ℝ) < π / 2; positivity) (by show π / 2 < π; linarith [pi_pos])
  exact h.1

/-- C10: on a tick where the plugin is validly configured but the
rendering camera is not yet acquired, `PreUpdate` only runs the
acquisition attempt and returns: the camera component is untouched, no
change is signalled, no warning fires, and the pending command state
(dirty flag, command value, goal) is preserved — even on the tick where
acquisition succeeds. -/
theorem acquisition_tick (s : PluginState) (cam : CameraComp)
    (inp : TickInput)
    (hv : s.isValidConfig = true) (hc : s.hasCamera = false) :
    (PreUpdate s cam inp).state = { s with hasCamera := inp.acquireSucceeds }
      ∧ (PreUpdate s cam inp).camera = cam
      ∧ (PreUpdate s cam inp).setChanged = false
      ∧ (PreUpdate s cam inp).warned = false
      ∧ (PreUpdate s cam inp).state.zoomChanged = s.zoomChanged
      ∧ (PreUpdate s cam inp).state.zoomCommand = s.zoomCommand
      ∧ (PreUpdate s cam inp).state.goalHfov = s.goalHfov := by
  rw [PreUpdate_acquire hv hc]
  exact ⟨rfl, rfl, rfl, rfl, rfl, rfl, rfl⟩

/-- Witness for C10: valid config, no camera yet, a pending command, and
an acquisition that succeeds this very tick: the pending command
survives and nothing is written. -/
theorem acquisition_tick_witness :
    (PreUpdate ⟨true, false, true, 5, 2, 2, 10, SlewRate.inf⟩ ⟨2, 1⟩
        ⟨1, true, true, true⟩).state.zoomChanged = true
      ∧ (PreUpdate ⟨true, false, true, 5, 2, 2, 10, SlewRate.inf⟩ ⟨2, 1⟩
        ⟨1, true, true, true⟩).state.hasCamera = true
      ∧ (PreUpdate ⟨true, false, true, 5, 2, 2, 10, SlewRate.inf⟩ ⟨2, 1⟩
        ⟨1, true, true, true⟩).camera = ⟨2, 1⟩
      ∧ (PreUpdate ⟨true, false, true, 5, 2, 2, 10, SlewRate.inf⟩ ⟨2, 1⟩
        ⟨1, true, true, true⟩).setChanged = false := by
  have h := acquisition_tick ⟨true, false, true, 5, 2, 2, 10, SlewRate.inf⟩
    ⟨2, 1⟩ ⟨1, true, true, true⟩ rfl rfl
  exact ⟨h.2.2.2.2.1, by rw [h.1], h.2.1, h.2.2.1⟩

/-! ### Quiescence, teardown, and the change signal -/

lemma PreUpdate_quiescent {s : PluginState} {cam : CameraComp}
    {inp : TickInput} (hz : s.zoomChanged = false)
    (hg : s.goalHfov = s.refHfov) (hθ : cam.hfov = s.refHfov) :
    (PreUpdate s cam inp).camera = cam
      ∧ (PreUpdate s cam inp).setChanged = false
      ∧ (PreUpdate s cam inp).state.zoomChanged = false
      ∧ (PreUpdate s cam inp).state.goalHfov
          = (PreUpdate s cam inp).state.refHfov
      ∧ (PreUpdate s cam inp).state.refHfov = s.refHfov := by
  cases hv : s.isValidConfig
  · rw [PreUpdate_invalid hv]
    exact ⟨rfl, rfl, hz, hg, rfl⟩
  · cases hc : s.hasCamera
    · rw [PreUpdate_acquire hv hc]
      exact ⟨rfl, rfl, hz, hg, rfl⟩
    · cases hcomp : inp.compPresent
      · rw [PreUpdate_noComp hv hc hcomp]
        exact ⟨rfl, rfl, hz, hg, rfl⟩
      · have hrg := resolveGoal_of_clean hz
        cases hsdf : inp.sdfPresent
        · rw [PreUpdate_noSdf hv hc hcomp hsdf, hrg]
          exact ⟨rfl, rfl, hz, hg, rfl⟩
        · have hee : |(resolveGoal s).1.goalHfov - cam.hfov| < eps := by
            rw [hrg]
            show |s.goalHfov - cam.hfov| < eps
            rw [hg, hθ, sub_self, abs_zero]
            exact eps_pos
          rw [PreUpdate_earlyExit hv hc hcomp hsdf hee, hrg]
          exact ⟨rfl, rfl, hz, hg, rfl⟩

lemma run_quiescent : ∀ (is : List TickInput) (s : PluginState)
    (cam : CameraComp), s.zoomChanged = false → s.goalHfov = s.refHfov →
    cam.hfov = s.refHfov →
    (run s cam is).2.1 = cam ∧ (run s cam is).2.2 = false
  | [], _, _, _, _, _ => ⟨rfl, rfl⟩
  | i :: is, s, cam, hz, hg, hθ => by
      obtain ⟨hcam, hflag, hz', hg', href'⟩ :=
        @PreUpdate_quiescent s cam i hz hg hθ
      have hθ' : (PreUpdate s cam i).camera.hfov
          = (PreUpdate s cam i).state.refHfov := by
        rw [hcam, href', hθ]
      have ih := run_quiescent is (PreUpdate s cam i).state
        (PreUpdate s cam i).camera hz' hg' hθ'
      refine ⟨ih.1.trans hcam, ?_⟩
      show ((PreUpdate s cam i).setChanged
          || (run (PreUpdate s cam i).state (PreUpdate s cam i).camera
              is).2.2) = false
      rw [hflag, ih.2]
      rfl

/-- C9: if no zoom command is ever submitted (clean dirty flag, goal at
the reference FOV, camera FOV at the reference FOV), then over every
tick sequence the camera component is never written, its FOV stays at
`refHfov` indefinitely, and no change is ever signalled. -/
theorem no_command_quiescent (s : PluginState) (cam : CameraComp)
    (hz : s.zoomChanged = false) (hg : s.goalHfov = s.refHfov)
    (hθ : cam.hfov = s.refHfov) (is : List TickInput) :
    (run s cam is).2.1 = cam ∧ (run s cam is).2.1.hfov = s.refHfov
      ∧ (run s cam is).2.2 = false := by
  have h := run_quiescent is s cam hz hg hθ
  exact ⟨h.1, by rw [h.1, hθ], h.2⟩

/-- Witness for C9 with the plugin defaults (`refHfov = goalHfov = 2`)
and one full tick. -/
theorem no_command_quiescent_witness :
    (run ⟨true, true, false, 1, 2, 2, 10, SlewRate.inf⟩ ⟨2, 1⟩
        [⟨1, true, true, true⟩]).2.1.hfov = 2
      ∧ (run ⟨true, true, false, 1, 2, 2, 10, SlewRate.inf⟩ ⟨2, 1⟩
        [⟨1, true, true, true⟩]).2.2 = false := by
  have h := no_command_quiescent ⟨true, true, false, 1, 2, 2, 10, SlewRate.inf⟩
    ⟨2, 1⟩ rfl rfl rfl [⟨1, true, true, true⟩]
  exact ⟨h.2.1, h.2.2⟩

lemma run_inert : ∀ (is : List TickInput) (s : PluginState)
    (cam : CameraComp), s.isValidConfig = false →
    (run s cam is).1 = s ∧ (run s cam is).2.1 = cam
      ∧ (run s cam is).2.2 = false
  | [], _, _, _ => ⟨rfl, rfl, rfl⟩
  | i :: is, s, cam, hv => by
      have hi := @PreUpdate_invalid s cam i hv
      have ih := run_inert is (PreUpdate s cam i).state
        (PreUpdate s cam i).camera (by rw [hi]; exact hv)
      refine ⟨?_, ?_, ?_⟩
      · show (run (PreUpdate s cam i).state
            (PreUpdate s cam i).camera is).1 = s
        rw [ih.1, hi]
      · show (run (PreUpdate s cam i).state
            (PreUpdate s cam i).camera is).2.1 = cam
        rw [ih.2.1, hi]
      · show ((PreUpdate s cam i).setChanged
            || (run (PreUpdate s cam i).state (PreUpdate s cam i).camera
                is).2.2) = false
        rw [ih.2.2, hi]
        rfl

/-- C5 counterexample: after a render-teardown at a concrete active
state, there is no tick sequence after which the controller signals an
FOV update again — it never resumes, refuting the claimed re-entry into
the active state. -/
theorem teardown_terminal_cex :
    ¬ ∃ inputs : List TickInput,
      (run (OnRenderTeardown ⟨true, true, false, 1, 2, 2, 10, SlewRate.inf⟩)
          ⟨2, 1⟩ inputs).2.2 = true := by
  rintro ⟨inputs, hset⟩
  have h := run_inert inputs
    (OnRenderTeardown ⟨true, true, false, 1, 2, 2, 10, SlewRate.inf⟩)
    ⟨2, 1⟩ rfl
  rw [h.2.2] at hset
  exact Bool.false_ne_true hset

/-- C5 amended: a render-teardown signal invalidates the configuration
permanently: for every subsequent tick sequence the plugin state and the
camera component are untouched and no change is ever signalled; the
controller cannot re-enter the active state without external
reconfiguration. -/
theorem teardown_terminal (s : PluginState) (cam : CameraComp)
    (inputs : List TickInput) :
    (run (OnRenderTeardown s) cam inputs).1 = OnRenderTeardown s
      ∧ (run (OnRenderTeardown s) cam inputs).2.1 = cam
      ∧ (run (OnRenderTeardown s) cam inputs).2.2 = false :=
  run_inert inputs (OnRenderTeardown s) cam rfl

/-- C6 counterexample: a tick with `dt = 0`, finite slew rate, and the
goal well away from the current FOV: the computed new FOV equals the old
FOV exactly, yet the change signal fires — refuting the claim that no
change is signalled when the published value does not change. -/
theorem change_signal_cex :
    (PreUpdate ⟨true, true, false, 1, 2, 1, 10, SlewRate.fin 1⟩ ⟨π / 2, 1⟩
        ⟨0, true, true, true⟩).setChanged = true
      ∧ (PreUpdate ⟨true, true, false, 1, 2, 1, 10, SlewRate.fin 1⟩
        ⟨π / 2, 1⟩ ⟨0, true, true, true⟩).camera.hfov = π / 2 := by
  have hne : ¬ |(resolveGoal
      ⟨true, true, false, 1, 2, 1, 10, SlewRate.fin 1⟩).1.goalHfov
        - (⟨π / 2, 1⟩ : CameraComp).hfov| < eps := by
    rw [resolveGoal_of_clean rfl]
    show ¬ |(1 : ℝ) - π / 2| < eps
    rw [abs_of_nonpos (by linarith [pi_gt_three])]
    norm_num [eps]
    linarith [pi_gt_three]
  refine ⟨?_, ?_⟩
  · rw [PreUpdate_slew rfl rfl rfl rfl hne]
  · exact hfov_unchanged_of_zero rfl (by norm_num) (by norm_num)
      (by show (0 : ℝ) < π / 2; positivity)
      (by show π / 2 < π; linarith [pi_pos])

/-- C6 amended: on every tick that passes the configuration, camera,
component and sdf guards, the FOV attribute is marked changed exactly
when the early exit is not taken, i.e. iff the resolved goal differs
from the current FOV by at least machine epsilon — including ticks
whose written FOV equals the previous value (such as `dt = 0` with a
finite slew rate). -/
theorem change_signal_iff (s : PluginState) (cam : CameraComp)
    (inp : TickInput)
    (hv : s.isValidConfig = true) (hc : s.hasCamera = true)
    (hcomp : inp.compPresent = true) (hsdf : inp.sdfPresent = true) :
    (PreUpdate s cam inp).setChanged = true
      ↔ ¬ |(resolveGoal s).1.goalHfov - cam.hfov| < eps := by
  by_cases hee : |(resolveGoal s).1.goalHfov - cam.hfov| < eps
  · rw [PreUpdate_earlyExit hv hc hcomp hsdf hee]
    simp [hee]
  · rw [PreUpdate_slew hv hc hcomp hsdf hee]
    simp [hee]

/-- Witness for C6's amended theorem at the counterexample input. -/
theorem change_signal_iff_witness :
    (PreUpdate ⟨true, true, false, 1, 2, 1, 10, SlewRate.fin 1⟩ ⟨π / 2, 1⟩
        ⟨0, true, true, true⟩).setChanged = true := by
  have hne : ¬ |(resolveGoal
      ⟨true, true, false, 1, 2, 1, 10, SlewRate.fin 1⟩).1.goalHfov
        - (⟨π / 2, 1⟩ : CameraComp).hfov| < eps := by
    rw [resolveGoal_of_clean rfl]
    show ¬ |(1 : ℝ) - π / 2| < eps
    rw [abs_of_nonpos (by linarith [pi_gt_three])]
    norm_num [eps]
    linarith [pi_gt_three]
  exact (change_signal_iff _ _ _ rfl rfl rfl rfl).mpr hne

end CameraZoom
